import Mathlib

/-!
Verification development for a multi-platform video downloader.

The definitions below are a shallow embedding of the Python sources:
`src/utils/url_parser.py` (URL validation, platform classification and
normalization), `src/services/platforms/youtube.py` (format processing) and
`src/services/download_manager.py` (the task store and the per-task download
thread).  Strings are modelled through their character lists, timestamps as
natural-number seconds, and the Python regular expressions through a small
backtracking matcher whose preference order (leftmost position, greedy / lazy
quantifiers, left alternative first) mirrors Python's `re.search`.
-/

namespace VD

/-! ## Character-list string utilities (models of Python `str` operations) -/

/-- Whether the character list `p` is an initial segment of `l`
(helper for literal matching and substring search). -/
def litMatch : List Char → List Char → Bool
  | [], _ => true
  | _ :: _, [] => false
  | p :: ps, c :: cs => p == c && litMatch ps cs

/-- Index of the first occurrence of `pat` in `hay`, if any.
Models Python's substring search (`pat in hay`, `hay.find(pat)`). -/
def findSub (pat : List Char) : List Char → Option Nat
  | [] => if litMatch pat [] then some 0 else none
  | c :: t => if litMatch pat (c :: t) then some 0 else (findSub pat t).map (· + 1)

/-- Python's `sub in s` membership test on strings. -/
def strContains (s sub : String) : Bool := (findSub sub.toList s.toList).isSome

/-- Python's `s.startswith(p)` on strings. -/
def strStarts (s p : String) : Bool := litMatch p.toList s.toList

/-- Fuelled worker for `splitOnL`; the fuel is an upper bound on the number of
characters still to be consumed, so it never runs out on `splitOnL`'s call. -/
def splitOnFuel (sep : List Char) : Nat → List Char → List (List Char)
  | _, [] => [[]]
  | 0, l => [l]
  | f + 1, c :: t =>
    if litMatch sep (c :: t) then
      [] :: splitOnFuel sep f (t.drop (sep.length - 1))
    else
      match splitOnFuel sep f t with
      | [] => [[c]]
      | h :: r => (c :: h) :: r

/-- Python's `s.split(sep)` for a non-empty separator, on character lists:
splits at every non-overlapping occurrence of `sep`, keeping empty pieces. -/
def splitOnL (sep l : List Char) : List (List Char) := splitOnFuel sep l.length l

/-- Python's `s.split(sep)` on strings. -/
def pySplit (s sep : String) : List String := (splitOnL sep.toList s.toList).map String.mk

/-- Python's `s.strip()` restricted to whitespace, on character lists. -/
def pyStrip (l : List Char) : List Char :=
  ((l.dropWhile Char.isWhitespace).reverse.dropWhile Char.isWhitespace).reverse

/-! ## A small backtracking regular-expression matcher

Models the fragment of Python's `re` used by `URLParser.PATTERNS`:
literals, character classes, sequencing, alternation (left first), greedy
`?`/`+`, lazy `*?`, exact repetition `{n}` and a single capture group. -/

/-- Regular-expression syntax.  `star` is the greedy and `starL` the lazy
Kleene iteration; `grp` is the (single) capture group of a pattern. -/
inductive RE where
  | eps : RE
  | lit : List Char → RE
  | cls : (Char → Bool) → RE
  | seq : RE → RE → RE
  | alt : RE → RE → RE
  | star : RE → RE
  | starL : RE → RE
  | grp : RE → RE

/-- Consume the literal `p` from the front of `s`. -/
def dropLit : List Char → List Char → Option (List Char)
  | [], s => some s
  | _ :: _, [] => none
  | p :: ps, c :: cs => if p == c then dropLit ps cs else none

/-- One backtracking alternative: the capture recorded so far (if the group
has already been matched) and the remaining input. -/
abbrev MRes := Option (List Char) × List Char

/-- Sequence two lists of alternatives, threading captures. -/
def seqRes (xs : List MRes) (k : List Char → List MRes) : List MRes :=
  xs.flatMap fun p => (k p.2).map fun q => (q.1 <|> p.1, q.2)

/-- Greedy iteration of a body matcher, bounded by fuel.  The bodies appearing
in the source patterns always consume at least one character, so fuel equal to
the input length makes this exact Kleene iteration (longest first). -/
def iterG : Nat → (List Char → List MRes) → List Char → List MRes
  | 0, _, s => [(none, s)]
  | f + 1, body, s => seqRes (body s) (iterG f body) ++ [(none, s)]

/-- Lazy iteration of a body matcher (shortest first), bounded by fuel. -/
def iterL : Nat → (List Char → List MRes) → List Char → List MRes
  | 0, _, s => [(none, s)]
  | f + 1, body, s => (none, s) :: seqRes (body s) (iterL f body)

/-- All ways to match `re` against a front segment of `s`, in Python's
backtracking preference order; each result is the capture (if the group was
entered) and the rest of the input. -/
def mtch (fuel : Nat) : RE → List Char → List MRes
  | .eps, s => [(none, s)]
  | .lit p, s => match dropLit p s with | some r => [(none, r)] | none => []
  | .cls _, [] => []
  | .cls f, c :: s => if f c then [(none, s)] else []
  | .seq a b, s => seqRes (mtch fuel a s) (mtch fuel b)
  | .alt a b, s => mtch fuel a s ++ mtch fuel b s
  | .star a, s => iterG fuel (mtch fuel a) s
  | .starL a, s => iterL fuel (mtch fuel a) s
  | .grp a, s => (mtch fuel a s).map fun p => (some (s.take (s.length - p.2.length)), p.2)

/-- Python's `re.search`: try each start position from the left; on the first
position with a match, return the contents of the capture group.
`some none` would mean a match in which the group was never entered (does not
occur for the source's patterns, where the group is mandatory). -/
def research (re : RE) : List Char → Option (Option (List Char))
  | [] => match mtch 1 re [] with | p :: _ => some p.1 | [] => none
  | c :: t =>
    match mtch (t.length + 2) re (c :: t) with
    | p :: _ => some p.1
    | [] => research re t

/-- `(?:x)?` — greedy option. -/
def optR (r : RE) : RE := .alt r .eps

/-- `x+` — greedy one-or-more. -/
def plusR (r : RE) : RE := .seq r (.star r)

/-- `x{n}` — exact repetition. -/
def repR : Nat → RE → RE
  | 0, _ => .eps
  | n + 1, r => .seq r (repR n r)

/-- String literal pattern. -/
def litR (s : String) : RE := .lit s.toList

/-! ## The source's pattern set (`URLParser.PATTERNS`)

Character classes are modelled over ASCII: `Char.isAlphanum` is exactly
`[a-zA-Z0-9]`; `\w` and `\d` are taken in their ASCII reading. -/

/-- `[a-zA-Z0-9_-]` -/
def wordDash (c : Char) : Bool := c.isAlphanum || c == '_' || c == '-'

/-- `\w` -/
def wordC (c : Char) : Bool := c.isAlphanum || c == '_'

/-- `\d` -/
def digitC (c : Char) : Bool := c.isDigit

/-- `.` (any character but a newline) -/
def anyC (c : Char) : Bool := !(c == '\n')

/-- `[^\/]` -/
def notSlash (c : Char) : Bool := !(c == '/')

/-- `(?:https?:\/\/)?` -/
def protoR : RE := optR (.seq (litR "http") (.seq (optR (litR "s")) (litR "://")))

/-- `(?:www\.)?` -/
def wwwR : RE := optR (litR "www.")

/-- `(?:https?:\/\/)?(?:www\.)?(?:youtube\.com|youtu\.be)\/(?:watch\?v=)?([a-zA-Z0-9_-]{11})` -/
def ytPat1 : RE :=
  .seq protoR (.seq wwwR (.seq (.alt (litR "youtube.com") (litR "youtu.be"))
    (.seq (litR "/") (.seq (optR (litR "watch?v=")) (.grp (repR 11 (.cls wordDash)))))))

/-- `(?:https?:\/\/)?(?:www\.)?youtube\.com\/shorts\/([a-zA-Z0-9_-]{11})` -/
def ytPat2 : RE :=
  .seq protoR (.seq wwwR (.seq (litR "youtube.com/shorts/") (.grp (repR 11 (.cls wordDash)))))

/-- `(?:www\.|web\.|m\.)?` -/
def fbSubR : RE := optR (.alt (litR "www.") (.alt (litR "web.") (litR "m.")))

/-- `(?:https?:\/\/)?(?:www\.|web\.|m\.)?facebook\.com\/(?:watch\/\?v=|video\.php\?v=|video\/video\.php\?v=|.*?\/videos\/|reel\/)(\d+)` -/
def fbPat1 : RE :=
  .seq protoR (.seq fbSubR (.seq (litR "facebook.com/")
    (.seq (.alt (litR "watch/?v=") (.alt (litR "video.php?v=")
      (.alt (litR "video/video.php?v=")
        (.alt (.seq (.starL (.cls anyC)) (litR "/videos/")) (litR "reel/")))))
      (.grp (plusR (.cls digitC))))))

/-- `(?:https?:\/\/)?(?:www\.|web\.|m\.)?fb\.watch\/([a-zA-Z0-9_-]+)` -/
def fbPat2 : RE :=
  .seq protoR (.seq fbSubR (.seq (litR "fb.watch/") (.grp (plusR (.cls wordDash)))))

/-- `(?:https?:\/\/)?(?:www\.)?tiktok\.com\/@[^\/]+\/video\/(\d+)` -/
def ttPat1 : RE :=
  .seq protoR (.seq wwwR (.seq (litR "tiktok.com/@")
    (.seq (plusR (.cls notSlash)) (.seq (litR "/video/") (.grp (plusR (.cls digitC)))))))

/-- `(?:https?:\/\/)?(?:www\.)?vm\.tiktok\.com\/([a-zA-Z0-9_-]+)` -/
def ttPat2 : RE :=
  .seq protoR (.seq wwwR (.seq (litR "vm.tiktok.com/") (.grp (plusR (.cls wordDash)))))

/-- `(?:https?:\/\/)?(?:www\.)?instagram\.com\/(?:p|reel)\/([a-zA-Z0-9_-]+)` -/
def igPat1 : RE :=
  .seq protoR (.seq wwwR (.seq (litR "instagram.com/")
    (.seq (.alt (litR "p") (litR "reel")) (.seq (litR "/") (.grp (plusR (.cls wordDash)))))))

/-- `(?:https?:\/\/)?(?:www\.)?instagram\.com\/tv\/([a-zA-Z0-9_-]+)` -/
def igPat2 : RE :=
  .seq protoR (.seq wwwR (.seq (litR "instagram.com/tv/") (.grp (plusR (.cls wordDash)))))

/-- `(?:https?:\/\/)?(?:www\.)?twitter\.com\/(?:\w+)\/status\/(\d+)` -/
def twPat1 : RE :=
  .seq protoR (.seq wwwR (.seq (litR "twitter.com/")
    (.seq (plusR (.cls wordC)) (.seq (litR "/status/") (.grp (plusR (.cls digitC)))))))

/-- `(?:https?:\/\/)?(?:www\.)?x\.com\/(?:\w+)\/status\/(\d+)` -/
def twPat2 : RE :=
  .seq protoR (.seq wwwR (.seq (litR "x.com/")
    (.seq (plusR (.cls wordC)) (.seq (litR "/status/") (.grp (plusR (.cls digitC)))))))

/-- `(?:https?:\/\/)?(?:www\.)?vimeo\.com\/(\d+)` -/
def vmPat : RE := .seq protoR (.seq wwwR (.seq (litR "vimeo.com/") (.grp (plusR (.cls digitC)))))

/-- `(?:https?:\/\/)?(?:www\.)?dailymotion\.com\/video\/([a-zA-Z0-9]+)` -/
def dmPat : RE :=
  .seq protoR (.seq wwwR (.seq (litR "dailymotion.com/video/")
    (.grp (plusR (.cls Char.isAlphanum)))))

/-- `URLParser.PATTERNS`, in the source's (insertion) order. -/
def PATTERNS : List (String × List RE) :=
  [("youtube", [ytPat1, ytPat2]),
   ("facebook", [fbPat1, fbPat2]),
   ("tiktok", [ttPat1, ttPat2]),
   ("instagram", [igPat1, igPat2]),
   ("twitter", [twPat1, twPat2]),
   ("vimeo", [vmPat]),
   ("dailymotion", [dmPat])]

/-! ## URL Classifier (`src/utils/url_parser.py`) -/

/-- Scheme characters accepted by the URL validator model. -/
def schemeChar (c : Char) : Bool := c.isAlpha || c.isDigit || c == '+' || c == '-' || c == '.'

/-- Host characters accepted by the URL validator model. -/
def hostChar (c : Char) : Bool := c.isAlphanum || c == '-' || c == '.' || c == '_'

/-- Model of the third-party `validators.url` check behind
`URLParser.validate_url` (the library itself is an external dependency, not
part of this repository): the string must carry a `scheme://` introducer and
a dotted host whose final label is alphabetic of length at least two.  The
claims below use it only through the facts that a string without `://` is
rejected and that ordinary `https://host.tld/...` URLs are accepted. -/
def validate_url (u : String) : Bool :=
  match findSub "://".toList u.toList with
  | none => false
  | some k =>
    let scheme := u.toList.take k
    let rest := u.toList.drop (k + 3)
    let host := rest.takeWhile fun c => !(c == '/' || c == '?' || c == '#')
    let hostNoPort := host.takeWhile fun c => !(c == ':')
    let labels := splitOnL ['.'] hostNoPort
    !scheme.isEmpty && scheme.all schemeChar &&
      !hostNoPort.isEmpty && hostNoPort.all hostChar &&
      decide (2 ≤ labels.length) && labels.all (fun l => !l.isEmpty) &&
      decide (2 ≤ (labels.getLastD []).length) && (labels.getLastD []).all Char.isAlpha

/-- First matching pattern of a single platform's list, yielding the capture
(`group(1)`). -/
def scanList : List RE → String → Option String
  | [], _ => none
  | p :: ps, u =>
    match research p u.toList with
    | some cap => some (String.mk (cap.getD []))
    | none => scanList ps u

/-- First platform whose pattern list matches, in `PATTERNS` order. -/
def scanPatterns : List (String × List RE) → String → Option (String × String)
  | [], _ => none
  | (plat, pats) :: rest, u =>
    match scanList pats u with
    | some vid => some (plat, vid)
    | none => scanPatterns rest u

/-- `urllib.parse.urlparse(url).netloc`, modelled for URLs that carry a
scheme (the only ones that reach the domain fallback): the segment between
`://` and the next `/`, `?` or `#`. -/
def urlparse_netloc (u : String) : String :=
  match findSub "://".toList u.toList with
  | none => ""
  | some k =>
    String.mk ((u.toList.drop (k + 3)).takeWhile fun c => !(c == '/' || c == '?' || c == '#'))

/-- `'.'.join(domain.split('.')[-2:]) if len(domain.split('.')) > 1 else domain`
— the "registrable domain" computed by the fallback branch. -/
def base_domain (u : String) : String :=
  let domain := urlparse_netloc u
  let parts := pySplit domain "."
  if 1 < parts.length then String.intercalate "." (parts.drop (parts.length - 2)) else domain

/-- `URLParser.identify_platform`: reject invalid URLs, then first matching
pattern rule, then the domain-substring fallback, then `generic`. -/
def identify_platform (url : String) : Option String × Option String :=
  if !(validate_url url) then (none, none)
  else
    match scanPatterns PATTERNS url with
    | some pv => (some pv.1, some pv.2)
    | none =>
      match (PATTERNS.map Prod.fst).find? (fun plat => strContains (base_domain url) plat) with
      | some plat => (some plat, none)
      | none => (some "generic", none)

/-- The final scheme-guarantee step of `normalize_url`. -/
def ensureScheme (url : String) : String :=
  if strStarts url "http://" || strStarts url "https://" then url else "https://" ++ url

/-- The platform value `normalize_url` works with: re-derived through
`identify_platform` when the argument is absent (Python's `if not platform:`
also treats the empty string as absent). -/
def resolvePlatform (url : String) (platform : Option String) : Option String :=
  match platform with
  | none => (identify_platform url).1
  | some p => if p == "" then (identify_platform url).1 else some p

/-- The body of `normalize_url` once the platform is resolved: rewrite
`youtu.be` and `/shorts/` forms of YouTube URLs to the canonical watch URL,
then guarantee a scheme. -/
def normalizeWith (url : String) (plat : Option String) : String :=
  if plat == some "youtube" then
    if strContains url "youtu.be" then
      let video_id := (pySplit ((pySplit url "/").getLastD "") "?").headD ""
      "https://www.youtube.com/watch?v=" ++ video_id
    else if strContains url "/shorts/" then
      let video_id := (pySplit ((pySplit url "/shorts/").getD 1 "") "?").headD ""
      "https://www.youtube.com/watch?v=" ++ video_id
    else ensureScheme url
  else ensureScheme url

/-- `URLParser.normalize_url`. -/
def normalize_url (url : String) (platform : Option String := none) : String :=
  normalizeWith url (resolvePlatform url platform)

/-- Decidable form of "no per-platform pattern rule matches `u`". -/
def patternsNoMatch (u : String) : Bool :=
  PATTERNS.all fun pr => pr.2.all fun p => (research p u.toList).isNone

/-! ## Task Store (`src/services/download_manager.py`)

A task record mirrors the dictionary built by `create_task`; the keys
`title`/`thumbnail`, added later by the download thread, are `Option` fields
that start out `none`.  Timestamps (`datetime.now().isoformat()`) are
modelled as natural-number seconds supplied by the caller; `uuid.uuid4()` is
modelled by a caller-supplied id.  The store itself is the `tasks` dict, an
insertion-ordered association list with unique keys, and every operation
below is one critical section (`with self.tasks_lock:`). -/

structure Task where
  id : String
  url : String
  platform : Option String
  format_id : Option String
  status : String
  progress : Nat
  created_at : Nat
  started_at : Option Nat
  completed_at : Option Nat
  file_path : Option String
  error : Option String
  title : Option String := none
  thumbnail : Option String := none
deriving DecidableEq, Repr

/-- The in-memory `tasks` dictionary. -/
abbrev Store := List (String × Task)

/-- `self.tasks.get(task_id)` (also `task_id in self.tasks`). -/
def alGet (st : Store) (id : String) : Option Task :=
  (st.find? fun p => p.1 == id).map Prod.snd

/-- `self.tasks[task_id] = t`: overwrite in place, or append a new key. -/
def alSet (st : Store) (id : String) (t : Task) : Store :=
  if (st.find? fun p => p.1 == id).isSome then
    st.map fun p => if p.1 == id then (id, t) else p
  else st ++ [(id, t)]

/-- In-place field update `self.tasks[task_id][...] = ...` of an existing
entry (the source only performs it on ids present in the dict). -/
def alUpdate (st : Store) (id : String) (f : Task → Task) : Store :=
  st.map fun p => if p.1 == id then (p.1, f p.2) else p

/-- `DownloadManager.create_task`: insert a fresh record in state
`'created'` with `created_at` set and all other timestamps and results empty. -/
def create_task (st : Store) (task_id url : String) (platform : Option String)
    (format_id : Option String) (now : Nat) : Store :=
  alSet st task_id
    { id := task_id, url := url, platform := platform, format_id := format_id,
      status := "created", progress := 0, created_at := now,
      started_at := none, completed_at := none, file_path := none, error := none }

/-- `DownloadManager.start_download` (store effect): `False` when the id is
unknown, otherwise unconditionally mark `'starting'`, set `started_at` and
dispatch the download thread (the spawned thread itself is modelled by the
`dl*` steps below). -/
def start_download (st : Store) (task_id : String) (now : Nat) : Bool × Store :=
  if (alGet st task_id).isNone then (false, st)
  else (true, alUpdate st task_id fun t => { t with status := "starting", started_at := some now })

/-- The statuses accepted by `cancel_task`. -/
def nonTerminalStatuses : List String := ["created", "starting", "extracting", "downloading"]

/-- `DownloadManager.cancel_task`: mark `'cancelled'` and set `completed_at`
when the task exists in a non-terminal status; otherwise `False` untouched. -/
def cancel_task (st : Store) (task_id : String) (now : Nat) : Bool × Store :=
  match alGet st task_id with
  | some t =>
    if nonTerminalStatuses.contains t.status then
      (true, alUpdate st task_id fun t => { t with status := "cancelled", completed_at := some now })
    else (false, st)
  | none => (false, st)

/-- The removal test of `clean_old_tasks`: only `'completed'`/`'failed'`
tasks whose `completed_at` is set and strictly older than the age bound. -/
def shouldClean (t : Task) (max_age_hours now : Nat) : Bool :=
  (t.status == "completed" || t.status == "failed") &&
    match t.completed_at with
    | some c => decide (max_age_hours * 3600 < now - c)
    | none => false

/-- `DownloadManager.clean_old_tasks`: the source iterates `list(keys)` under
the lock, deleting every id whose task passes `shouldClean` and counting the
deletions; on a dict (unique keys) this is exactly the following filter with
count, stated here by structural recursion over the association list. -/
def clean_old_tasks (st : Store) (max_age_hours now : Nat) : Nat × Store :=
  match st with
  | [] => (0, [])
  | e :: rest =>
    let r := clean_old_tasks rest max_age_hours now
    if shouldClean e.2 max_age_hours now then (r.1 + 1, r.2) else (r.1, e :: r.2)

/-! ## Task Executor (`DownloadManager._download_thread`)

The thread body is a sequence of critical sections on the store, separated by
the two blocking collaborator calls `extract_info` and `download`.  Each
section is one `dl*` step; `download_thread` is their composition for an
uninterrupted run, and the C1 trace interleaves `cancel_task` between steps
exactly as the scheduler may. -/

/-- Result of the handler's `extract_info`, as consumed by the thread
(`success`, optional `error`, and the metadata the thread reads). -/
structure ExtractResult where
  success : Bool
  error : Option String := none
  title : Option String := none
  thumbnail : Option String := none
deriving DecidableEq, Repr

/-- Result of the handler's `download` as consumed by the thread (on success
the `file_path` key is read, on failure `error` with a default). -/
structure DownloadResult where
  success : Bool
  file_path : String := ""
  error : Option String := none
deriving DecidableEq, Repr

/-- First critical section: read the task and mark `'extracting'`. -/
def dlMarkExtracting (st : Store) (id : String) : Store :=
  alUpdate st id fun t => { t with status := "extracting" }

/-- Failure section after `extract_info`: mark `'failed'`, record the error
(with the source's default message) and set `completed_at`. -/
def dlFailExtract (st : Store) (id : String) (e : ExtractResult) (now : Nat) : Store :=
  alUpdate st id fun t =>
    { t with status := "failed",
             error := some (e.error.getD "Failed to extract video information"),
             completed_at := some now }

/-- Pre-download section: mark `'downloading'` and record title/thumbnail. -/
def dlMarkDownloading (st : Store) (id : String) (e : ExtractResult) : Store :=
  alUpdate st id fun t => { t with status := "downloading", title := e.title, thumbnail := e.thumbnail }

/-- Final section: on success mark `'completed'` with `file_path` and
`progress = 100`, on failure mark `'failed'` with the error; in both cases
set `completed_at`.  The current status is never consulted. -/
def dlFinish (st : Store) (id : String) (r : DownloadResult) (now : Nat) : Store :=
  let st1 :=
    if r.success then
      alUpdate st id fun t => { t with status := "completed", file_path := some r.file_path, progress := 100 }
    else
      alUpdate st id fun t => { t with status := "failed", error := some (r.error.getD "Download failed") }
  alUpdate st1 id fun t => { t with completed_at := some now }

/-- An uninterrupted run of `_download_thread` for a task whose handler
returns `einfo` from `extract_info` and `dres` from `download`.  On
extraction failure the thread returns before the download phase, so `dres`
is never consulted there. -/
def download_thread (st : Store) (id : String) (einfo : ExtractResult)
    (dres : DownloadResult) (nowFail nowDone : Nat) : Store :=
  let st1 := dlMarkExtracting st id
  if einfo.success = false then dlFailExtract st1 id einfo nowFail
  else dlFinish (dlMarkDownloading st1 id einfo) id dres nowDone

/-! ## Filename derivation (`_download_thread`, output-path block) -/

/-- The characters kept by the title sanitizer: `c.isalnum() or c in ' ._-'`
(alphanumeric read over ASCII). -/
def allowedFilenameChar (c : Char) : Bool :=
  c.isAlphanum || c == ' ' || c == '.' || c == '_' || c == '-'

/-- `''.join(c for c in title if c.isalnum() or c in ' ._-').strip()[:50]` -/
def sanitizeTitle (title : String) : String :=
  String.mk ((pyStrip (title.toList.filter allowedFilenameChar)).take 50)

/-- `f"{title}_{timestamp}.mp4"` on the sanitized title. -/
def outputFilename (title : String) (timestamp : Nat) : String :=
  sanitizeTitle title ++ "_" ++ toString timestamp ++ ".mp4"

/-! ## Format Processor (`YouTubeHandler._process_formats`)

A raw yt-dlp format dictionary; an `Option` field set to `none` models an
absent key (so `fmt.get(k, d)` is `getD`), and Python's falsiness tests on
these string fields treat both an absent key and the empty string as false. -/

structure RawFormat where
  format_id : Option String := none
  ext : Option String := none
  resolution : Option String := none
  fps : Option Nat := none
  vcodec : Option String := none
  acodec : Option String := none
  filesize : Option Nat := none
  format_note : Option String := none
  quality : Option Int := none
  tbr : Option Nat := none
deriving DecidableEq, Repr

/-- The canonical format entry built for each kept raw format. -/
structure FormatEntry where
  format_id : String
  ext : Option String
  resolution : String
  fps : Option Nat
  vcodec : Option String
  acodec : Option String
  filesize : Option Nat
  format_note : String
  quality : Int
  tbr : Option Nat
  description : String
deriving DecidableEq, Repr

/-- Python truthiness of an optional string (`fmt.get(k)` used as a bool). -/
def truthyS : Option String → Bool
  | some s => !(s == "")
  | none => false

/-- `f"{size_mb:.1f}"` for `size_mb = filesize / (1024*1024)`, rendered in
integer tenths of a megabyte (rounding to nearest, a faithful model of the
one-decimal float format for the sizes at stake). -/
def mbString (filesize : Nat) : String :=
  let tenths := (filesize * 10 + 524288) / 1048576
  toString (tenths / 10) ++ "." ++ toString (tenths % 10)

/-- `YouTubeHandler._format_description`: the human-readable description,
assembled from the raw format in the source's fixed order. -/
def format_description (f : RawFormat) : String :=
  let p1 := if truthyS f.resolution && !(f.resolution.getD "" == "audio only")
            then [f.resolution.getD ""] else []
  let p2 := if truthyS f.format_note && !(f.format_note.getD "" == "Default")
            then [f.format_note.getD ""] else []
  let p3 := if truthyS f.vcodec && !(f.vcodec.getD "" == "none")
            then ["Video: " ++ f.vcodec.getD "unknown"] else []
  let p4 := if truthyS f.acodec && !(f.acodec.getD "" == "none")
            then ["Audio: " ++ f.acodec.getD "unknown"] else []
  let p5 := if truthyS f.ext then ["." ++ f.ext.getD ""] else []
  let p6 := match f.filesize with
            | some n => if n == 0 then [] else [mbString n ++ " MB"]
            | none => []
  String.intercalate " - " (p1 ++ p2 ++ p3 ++ p4 ++ p5 ++ p6)

/-- The filter test `if not fmt.get('format_id'): continue`. -/
def hasFormatId (f : RawFormat) : Bool := truthyS f.format_id

/-- The clean entry built for each kept format. -/
def toEntry (f : RawFormat) : FormatEntry :=
  { format_id := f.format_id.getD "", ext := f.ext,
    resolution := f.resolution.getD "unknown", fps := f.fps,
    vcodec := f.vcodec, acodec := f.acodec, filesize := f.filesize,
    format_note := f.format_note.getD "", quality := f.quality.getD 0,
    tbr := f.tbr, description := format_description f }

/-- Stable insertion for the descending-quality sort: an element is placed
before the first entry of not-greater quality, so elements of equal quality
keep their relative order. -/
def insertByQuality (x : FormatEntry) : List FormatEntry → List FormatEntry
  | [] => [x]
  | y :: ys => if y.quality ≤ x.quality then x :: y :: ys else y :: insertByQuality x ys

/-- `sorted(processed_formats, key=lambda x: x.get('quality', 0), reverse=True)`.
Python's `sorted` is a stable sort also under `reverse=True`; for any input
there is exactly one descending arrangement in which entries of equal quality
keep their input order, and this insertion sort produces it. -/
def sortByQualityDesc : List FormatEntry → List FormatEntry
  | [] => []
  | x :: xs => insertByQuality x (sortByQualityDesc xs)

/-- `YouTubeHandler._process_formats`: drop the formats without an id, build
the clean entries, and sort them by quality, higher first. -/
def process_formats (fmts : List RawFormat) : List FormatEntry :=
  sortByQualityDesc ((fmts.filter hasFormatId).map toEntry)

/-! ## Concrete runs used by the counterexamples and witnesses -/

/-- The record `create_task` builds for the runs below. -/
def createdTask : Task :=
  { id := "t1", url := "https://www.youtube.com/watch?v=dQw4w9WgXcQ",
    platform := some "youtube", format_id := none, status := "created",
    progress := 0, created_at := 0, started_at := none, completed_at := none,
    file_path := none, error := none }

/-- A fresh task as `create_task` builds it. -/
def c1Store0 : Store :=
  create_task [] "t1" "https://www.youtube.com/watch?v=dQw4w9WgXcQ" (some "youtube") none 0

/-- After `start_download` at time 1. -/
def c1Store1 : Store := (start_download c1Store0 "t1" 1).2

/-- The thread's first critical section has marked `'extracting'`. -/
def c1Store2 : Store := dlMarkExtracting c1Store1 "t1"

/-- A cancellation request lands while the thread is inside `extract_info`. -/
def c1CancelStep : Bool × Store := cancel_task c1Store2 "t1" 2

/-- The store right after the successful cancellation. -/
def c1Store3 : Store := c1CancelStep.2

/-- A successful extraction, as the handler returns it. -/
def c1Extract : ExtractResult :=
  { success := true, title := some "Never Gonna Give You Up", thumbnail := some "thumb.jpg" }

/-- A successful download, as the handler returns it. -/
def c1Download : DownloadResult :=
  { success := true, file_path := "/downloads/Never Gonna Give You Up_3.mp4" }

/-- The thread then runs its remaining critical sections to completion. -/
def c1Final : Store := dlFinish (dlMarkDownloading c1Store3 "t1" c1Extract) "t1" c1Download 3

/-- A task that has already been started (phase `'downloading'`). -/
def startedTask : Task :=
  { id := "t1", url := "https://www.youtube.com/watch?v=dQw4w9WgXcQ",
    platform := some "youtube", format_id := none, status := "downloading",
    progress := 0, created_at := 0, started_at := some 1, completed_at := none,
    file_path := none, error := none }

/-- A store holding only `startedTask`. -/
def startedStore : Store := [("t1", startedTask)]

/-- A task cancelled at time 5. -/
def cancelledTask : Task :=
  { id := "t1", url := "https://www.youtube.com/watch?v=dQw4w9WgXcQ",
    platform := some "youtube", format_id := none, status := "cancelled",
    progress := 0, created_at := 0, started_at := some 1, completed_at := some 5,
    file_path := none, error := none }

/-- A store holding only the long-since-cancelled task. -/
def cancelledStore : Store := [("t1", cancelledTask)]

/-- A mixed store for the sweep witness: one old completed task, one old
failed task, one old cancelled task and one still-downloading task. -/
def sweepStore : Store :=
  [("a", { cancelledTask with id := "a", status := "completed", file_path := some "/d/a.mp4" }),
   ("b", { cancelledTask with id := "b", status := "failed", error := some "boom" }),
   ("c", { cancelledTask with id := "c" }),
   ("d", { startedTask with id := "d" })]

/-- A failed extraction with an explicit message. -/
def failedExtract : ExtractResult := { success := false, error := some "Video unavailable" }

/-- Raw format `{id: "a", quality: 5}` of the specified scenario. -/
def fmtA : RawFormat := { format_id := some "a", quality := some 5 }

/-- Raw format `{id: "b", quality: 10}` of the specified scenario. -/
def fmtB : RawFormat := { format_id := some "b", quality := some 10 }

/-- Raw format `{id: "c", quality: 10}` of the specified scenario. -/
def fmtC : RawFormat := { format_id := some "c", quality := some 10 }

/-- The scenario's raw format list. -/
def demoFormats : List RawFormat := [fmtA, fmtB, fmtC]

/-! ## Store lemmas -/

theorem alGet_cons (x : String × Task) (l : Store) (j : String) :
    alGet (x :: l) j = if x.1 == j then some x.2 else alGet l j := by
  cases h : x.1 == j <;> simp [alGet, List.find?_cons, h]

theorem alUpdate_cons (x : String × Task) (l : Store) (id : String) (f : Task → Task) :
    alUpdate (x :: l) id f = (if x.1 == id then (x.1, f x.2) else x) :: alUpdate l id f := rfl

theorem alGet_update_self (st : Store) (id : String) (f : Task → Task) :
    alGet (alUpdate st id f) id = (alGet st id).map f := by
  induction st with
  | nil => rfl
  | cons e rest ih =>
    cases h : e.1 == id
    · simp [alUpdate_cons, alGet_cons, h, ih]
    · simp [alUpdate_cons, alGet_cons, h, ih]

theorem alGet_update_ne (st : Store) (id j : String) (f : Task → Task) (hj : j ≠ id) :
    alGet (alUpdate st id f) j = alGet st j := by
  induction st with
  | nil => rfl
  | cons e rest ih =>
    cases h : e.1 == id
    · simp [alUpdate_cons, alGet_cons, h, ih]
    · have he1 : e.1 = id := by simpa using h
      have hj' : (e.1 == j) = false := by
        rw [he1, beq_eq_false_iff_ne]
        exact Ne.symm hj
      simp [alUpdate_cons, alGet_cons, h, hj', ih]

/-! ## Sorting lemmas for the Format Processor -/

/-- The descending-quality order maintained by the sort. -/
def qDesc (a b : FormatEntry) : Prop := b.quality ≤ a.quality

theorem insertByQuality_perm (x : FormatEntry) (l : List FormatEntry) :
    List.Perm (insertByQuality x l) (x :: l) := by
  induction l with
  | nil => rfl
  | cons y ys ih =>
    unfold insertByQuality
    by_cases h : y.quality ≤ x.quality
    · rw [if_pos h]
    · rw [if_neg h]
      exact ((ih.cons y).trans (List.Perm.swap x y ys))

theorem mem_insertByQuality {z x : FormatEntry} {l : List FormatEntry} :
    z ∈ insertByQuality x l ↔ z = x ∨ z ∈ l := by
  rw [(insertByQuality_perm x l).mem_iff, List.mem_cons]

theorem pairwise_insertByQuality (x : FormatEntry) (l : List FormatEntry)
    (h : l.Pairwise qDesc) : (insertByQuality x l).Pairwise qDesc := by
  induction l with
  | nil => simp [insertByQuality, List.pairwise_singleton]
  | cons y ys ih =>
    rcases List.pairwise_cons.mp h with ⟨h1, h2⟩
    unfold insertByQuality
    by_cases hc : y.quality ≤ x.quality
    · rw [if_pos hc]
      refine List.pairwise_cons.mpr ⟨?_, h⟩
      intro z hz
      rcases List.mem_cons.mp hz with rfl | hz
      · exact hc
      · exact le_trans (h1 z hz) hc
    · rw [if_neg hc]
      refine List.pairwise_cons.mpr ⟨?_, ih h2⟩
      intro z hz
      rcases mem_insertByQuality.mp hz with rfl | hz
      · exact le_of_lt (lt_of_not_le hc)
      · exact h1 z hz

theorem sortByQualityDesc_pairwise (l : List FormatEntry) :
    (sortByQualityDesc l).Pairwise qDesc := by
  induction l with
  | nil => exact List.Pairwise.nil
  | cons x xs ih => exact pairwise_insertByQuality x _ ih

theorem sortByQualityDesc_perm (l : List FormatEntry) : List.Perm (sortByQualityDesc l) l := by
  induction l with
  | nil => rfl
  | cons x xs ih => exact (insertByQuality_perm x _).trans (ih.cons x)

theorem filter_insertByQuality_ne (x : FormatEntry) (l : List FormatEntry) (q : Int)
    (hx : (x.quality == q) = false) :
    (insertByQuality x l).filter (fun e => e.quality == q)
      = l.filter (fun e => e.quality == q) := by
  induction l with
  | nil => simp [insertByQuality, List.filter, hx]
  | cons y ys ih =>
    unfold insertByQuality
    by_cases hc : y.quality ≤ x.quality
    · rw [if_pos hc]
      simp [List.filter, hx]
    · rw [if_neg hc]
      cases hy : y.quality == q <;> simp [List.filter_cons, hy, ih]

theorem filter_insertByQuality_eq (x : FormatEntry) (l : List FormatEntry) (q : Int)
    (hx : (x.quality == q) = true) (hl : l.Pairwise qDesc) :
    (insertByQuality x l).filter (fun e => e.quality == q)
      = x :: l.filter (fun e => e.quality == q) := by
  induction l with
  | nil => simp [insertByQuality, List.filter, hx]
  | cons y ys ih =>
    rcases List.pairwise_cons.mp hl with ⟨_, h2⟩
    unfold insertByQuality
    by_cases hc : y.quality ≤ x.quality
    · rw [if_pos hc]
      simp [List.filter_cons, hx]
    · rw [if_neg hc]
      have hxq : x.quality = q := by simpa using hx
      have hyq : (y.quality == q) = false := by
        rw [beq_eq_false_iff_ne]
        intro hyq
        exact hc (le_of_eq (hyq.trans hxq.symm))
      simp [List.filter_cons, hyq, ih h2]

theorem filter_sortByQualityDesc (l : List FormatEntry) (q : Int) :
    (sortByQualityDesc l).filter (fun e => e.quality == q)
      = l.filter (fun e => e.quality == q) := by
  induction l with
  | nil => rfl
  | cons x xs ih =>
    show (insertByQuality x (sortByQualityDesc xs)).filter _ = _
    cases hx : x.quality == q
    · rw [filter_insertByQuality_ne x _ q hx, ih, List.filter_cons, hx]
      simp
    · rw [filter_insertByQuality_eq x _ q hx (sortByQualityDesc_pairwise xs), ih,
        List.filter_cons, hx]
      simp

/-! ## Classifier lemmas -/

theorem scanList_none (ps : List RE) (u : String)
    (h : ∀ p ∈ ps, (research p u.toList).isNone = true) : scanList ps u = none := by
  induction ps with
  | nil => rfl
  | cons p ps ih =>
    have hp := h p (List.mem_cons_self p ps)
    unfold scanList
    cases hr : research p u.toList
    · exact ih fun r hr2 => h r (List.mem_cons_of_mem p hr2)
    · rw [hr] at hp
      simp at hp

theorem scanPatterns_none (l : List (String × List RE)) (u : String)
    (h : ∀ pr ∈ l, ∀ p ∈ pr.2, (research p u.toList).isNone = true) :
    scanPatterns l u = none := by
  induction l with
  | nil => rfl
  | cons pr rest ih =>
    unfold scanPatterns
    rw [scanList_none pr.2 u (h pr (List.mem_cons_self pr rest))]
    exact ih fun r hr p hp => h r (List.mem_cons_of_mem pr hr) p hp

/-- Every character of a stripped list comes from the list itself. -/
theorem mem_of_mem_pyStrip {c : Char} {l : List Char} (h : c ∈ pyStrip l) : c ∈ l := by
  unfold pyStrip at h
  rw [List.mem_reverse] at h
  have h2 := (List.dropWhile_sublist (l := (l.dropWhile Char.isWhitespace).reverse)
    Char.isWhitespace).subset h
  rw [List.mem_reverse] at h2
  exact (List.dropWhile_sublist Char.isWhitespace).subset h2

/-! ## Claim theorems -/

/-- C9: on the URL `https://youtu.be/dQw4w9WgXcQ`, `normalize_url` with the
platform forced to `youtube` returns exactly the canonical watch URL, and
`identify_platform` returns the pair `(youtube, dQw4w9WgXcQ)`. -/
theorem youtube_scenario :
    normalize_url "https://youtu.be/dQw4w9WgXcQ" (some "youtube")
        = "https://www.youtube.com/watch?v=dQw4w9WgXcQ"
      ∧ identify_platform "https://youtu.be/dQw4w9WgXcQ"
        = (some "youtube", some "dQw4w9WgXcQ") := by
  decide

/-- C4 counterexample: `normalize_url` is not idempotent.  On the scheme-less
shortened form `youtu.be/dQw4w9WgXcQ` the first application fails URL
validation inside `identify_platform`, so it only prefixes `https://`; the
second application then classifies the result as YouTube and rewrites it to
the watch URL, a different string. -/
theorem normalize_not_idempotent :
    normalize_url (normalize_url "youtu.be/dQw4w9WgXcQ")
      ≠ normalize_url "youtu.be/dQw4w9WgXcQ" := by
  decide

/-- C4 (amended): `normalize_url` is the identity — hence idempotent — on
every URL that already starts with `http://` or `https://` and contains
neither `youtu.be` nor `/shorts/` (in particular on the canonical watch URLs
it produces), for any supplied platform argument; idempotence fails in
general, as `normalize_not_idempotent` shows. -/
theorem normalize_idempotent_on_schemed (url : String) (p : Option String)
    (h1 : strStarts url "http://" = true ∨ strStarts url "https://" = true)
    (h2 : strContains url "youtu.be" = false)
    (h3 : strContains url "/shorts/" = false) :
    normalize_url url p = url
      ∧ normalize_url (normalize_url url p) p = normalize_url url p := by
  have hs : ensureScheme url = url := by
    rcases h1 with h | h <;> simp [ensureScheme, h]
  have hw : ∀ q : Option String, normalizeWith url q = url := by
    intro q
    cases hq : q == some "youtube" <;> simp [normalizeWith, hq, h2, h3, hs]
  have h0 : normalize_url url p = url := hw _
  exact ⟨h0, by rw [h0, h0]⟩

/-- C4 witness: the amended idempotence at the canonical watch URL. -/
theorem normalize_idempotent_on_schemed_witness :
    normalize_url "https://www.youtube.com/watch?v=dQw4w9WgXcQ" none
        = "https://www.youtube.com/watch?v=dQw4w9WgXcQ"
      ∧ normalize_url (normalize_url "https://www.youtube.com/watch?v=dQw4w9WgXcQ" none) none
        = normalize_url "https://www.youtube.com/watch?v=dQw4w9WgXcQ" none :=
  normalize_idempotent_on_schemed "https://www.youtube.com/watch?v=dQw4w9WgXcQ" none
    (Or.inr (by decide)) (by decide) (by decide)

/-- C8 counterexample: on the string `notaurl` no per-platform pattern rule
matches, yet `identify_platform` returns `(None, None)` — it rejects the
string before the domain fallback, so the result is neither a known platform
nor `generic`. -/
theorem identify_no_match_counterexample :
    patternsNoMatch "notaurl" = true
      ∧ identify_platform "notaurl" = (none, none)
      ∧ ((none, none) : Option String × Option String) ≠ (some "generic", none) := by
  decide

/-- C8 (amended): for every URL string that passes `validate_url` and on
which no per-platform pattern rule matches, `identify_platform` falls back to
the domain check: it returns a known platform with `content_id = None` when
that platform's name occurs in the registrable domain, and `(generic, None)`
when no platform name does — never a result outside the platform enumeration
plus `generic`. -/
theorem identify_fallback_spec (u : String) (hv : validate_url u = true)
    (hnm : patternsNoMatch u = true) :
    ∃ p, identify_platform u = (some p, none)
      ∧ ((p ∈ PATTERNS.map Prod.fst ∧ strContains (base_domain u) p = true)
        ∨ (p = "generic"
            ∧ ∀ q ∈ PATTERNS.map Prod.fst, strContains (base_domain u) q = false)) := by
  have hall : ∀ pr ∈ PATTERNS, ∀ p ∈ pr.2, (research p u.toList).isNone = true := by
    intro pr hpr p hp
    exact List.all_eq_true.mp (List.all_eq_true.mp hnm pr hpr) p hp
  have hscan : scanPatterns PATTERNS u = none := scanPatterns_none _ _ hall
  cases hf : (PATTERNS.map Prod.fst).find? (fun plat => strContains (base_domain u) plat) with
  | some plat =>
    have hid : identify_platform u = (some plat, none) := by
      simp [identify_platform, hv, hscan, hf]
    exact ⟨plat, hid, Or.inl ⟨List.mem_of_find?_eq_some hf, List.find?_some hf⟩⟩
  | none =>
    have hid : identify_platform u = (some "generic", none) := by
      simp [identify_platform, hv, hscan, hf]
    refine ⟨"generic", hid, Or.inr ⟨rfl, fun q hq => ?_⟩⟩
    simpa using List.find?_eq_none.mp hf q hq

/-- C8 witness: `https://example.com/page` is a valid URL matching no rule
and no platform domain, and the fallback classifies it as `generic`. -/
theorem identify_fallback_spec_witness :
    ∃ p, identify_platform "https://example.com/page" = (some p, none)
      ∧ ((p ∈ PATTERNS.map Prod.fst
            ∧ strContains (base_domain "https://example.com/page") p = true)
        ∨ (p = "generic"
            ∧ ∀ q ∈ PATTERNS.map Prod.fst,
                strContains (base_domain "https://example.com/page") q = false)) :=
  identify_fallback_spec "https://example.com/page" (by decide) (by decide)

/-- C10: the output file name derived from an extracted title keeps only
characters that are alphanumeric or in ` ._-`, truncates the sanitized title
to at most 50 characters, appends the integer timestamp, and always carries
the fixed extension `.mp4`. -/
theorem filename_derivation (title : String) (ts : Nat) :
    (∀ c ∈ (sanitizeTitle title).toList, allowedFilenameChar c = true)
      ∧ (sanitizeTitle title).toList.length ≤ 50
      ∧ outputFilename title ts = sanitizeTitle title ++ "_" ++ toString ts ++ ".mp4" := by
  refine ⟨?_, ?_, rfl⟩
  · intro c hc
    have hl : (sanitizeTitle title).toList
        = (pyStrip (title.toList.filter allowedFilenameChar)).take 50 := rfl
    rw [hl] at hc
    have hc1 := List.take_subset _ _ hc
    have hc2 := mem_of_mem_pyStrip hc1
    exact (List.mem_filter.mp hc2).2
  · have hl : (sanitizeTitle title).toList
        = (pyStrip (title.toList.filter allowedFilenameChar)).take 50 := rfl
    rw [hl]
    exact List.length_take_le _ _

/-- C10 witness: the derivation applied to a title holding disallowed
characters and surrounding spaces. -/
theorem filename_derivation_witness :
    (∀ c ∈ (sanitizeTitle "  My*Video: part/2  ").toList, allowedFilenameChar c = true)
      ∧ (sanitizeTitle "  My*Video: part/2  ").toList.length ≤ 50
      ∧ outputFilename "  My*Video: part/2  " 42
        = sanitizeTitle "  My*Video: part/2  " ++ "_" ++ toString 42 ++ ".mp4" :=
  filename_derivation "  My*Video: part/2  " 42

/-- C7: the Format Processor keeps exactly the raw formats carrying a format
identifier, mapped to canonical entries; the result is sorted by descending
quality; entries of equal quality keep their relative input order (for every
quality value, filtering the output at that quality returns the same
sequence as filtering the processed input); and the specified scenario
`[a@5, b@10, c@10]` comes out in the order `b, c, a`. -/
theorem process_formats_spec :
    (∀ fmts : List RawFormat,
        (process_formats fmts).Pairwise qDesc
          ∧ List.Perm (process_formats fmts) ((fmts.filter hasFormatId).map toEntry)
          ∧ ∀ q : Int,
              (process_formats fmts).filter (fun e => e.quality == q)
                = ((fmts.filter hasFormatId).map toEntry).filter (fun e => e.quality == q))
      ∧ (process_formats demoFormats).map FormatEntry.format_id = ["b", "c", "a"] := by
  refine ⟨fun fmts => ⟨sortByQualityDesc_pairwise _, sortByQualityDesc_perm _,
    fun q => filter_sortByQualityDesc _ q⟩, ?_⟩
  decide

/-- C1 (code bug run): in the interleaving create → start → mark-extracting →
cancel → finish, the cancellation succeeds and the task reads `'cancelled'`
(a terminal status), yet the thread's final critical section later moves it
to `'completed'` — the terminal status is overwritten because `dlFinish`
never re-checks the current status. -/
theorem c1_terminal_overwritten :
    c1CancelStep.1 = true
      ∧ (alGet c1Store3 "t1").map Task.status = some "cancelled"
      ∧ (alGet c1Final "t1").map Task.status = some "completed" := by
  decide

/-- C2 counterexample: on a task that has already been started (status
`'downloading'`, `started_at` set), `start_download` is not a no-op — it
returns `True`, rewinds the status to `'starting'` and mutates the store
(dispatching a second thread in the source). -/
theorem start_restart_counterexample :
    (start_download startedStore "t1" 9).1 = true
      ∧ (alGet (start_download startedStore "t1" 9).2 "t1").map Task.status = some "starting"
      ∧ (start_download startedStore "t1" 9).2 ≠ startedStore := by
  decide

/-- C2 (amended): `start_download` returns `False` without effect only when
the task id does not exist; for every existing task — in whatever status,
including one already started — it marks `'starting'`, sets `started_at`,
dispatches a thread and returns `True`. -/
theorem start_download_spec (st : Store) (id : String) (now : Nat) :
    (alGet st id = none → start_download st id now = (false, st))
      ∧ ∀ t, alGet st id = some t →
          start_download st id now
              = (true, alUpdate st id fun u => { u with status := "starting", started_at := some now })
            ∧ alGet (start_download st id now).2 id
              = some { t with status := "starting", started_at := some now } := by
  constructor
  · intro h
    simp [start_download, h]
  · intro t ht
    have hnn : (alGet st id).isNone = false := by rw [ht]; rfl
    constructor
    · simp [start_download, hnn]
    · simp [start_download, hnn, alGet_update_self, ht]

/-- C2 witness: the amended behaviour on the already-started task. -/
theorem start_download_spec_witness :
    start_download startedStore "t1" 9
        = (true, alUpdate startedStore "t1" fun u => { u with status := "starting", started_at := some 9 })
      ∧ alGet (start_download startedStore "t1" 9).2 "t1"
        = some { startedTask with status := "starting", started_at := some 9 } :=
  (start_download_spec startedStore "t1" 9).2 startedTask (by decide)

/-- C3 counterexample: a `'cancelled'` task — terminal, with `completed_at`
far in the past — survives `clean_old_tasks` with `max_age = 0`, and the
returned count is 0: the sweep does not remove all current terminal tasks. -/
theorem clean_keeps_cancelled_counterexample :
    (alGet cancelledStore "t1").map Task.status = some "cancelled"
      ∧ (alGet cancelledStore "t1").map Task.completed_at = some (some 5)
      ∧ clean_old_tasks cancelledStore 0 1000000 = (0, cancelledStore) := by
  decide

/-- C3 (amended): `clean_old_tasks` removes exactly the tasks whose status is
`'completed'` or `'failed'` and whose `completed_at` is set and strictly older
than `max_age_hours`, returning their count; `'cancelled'` tasks and
non-terminal tasks are never removed. -/
theorem clean_old_tasks_spec (st : Store) (mah now : Nat) :
    ((clean_old_tasks st mah now).2 = st.filter (fun e => !shouldClean e.2 mah now)
        ∧ (clean_old_tasks st mah now).1
          = (st.filter (fun e => shouldClean e.2 mah now)).length)
      ∧ (∀ e ∈ st, shouldClean e.2 mah now = true ↔
          ((e.2.status = "completed" ∨ e.2.status = "failed")
            ∧ ∃ c, e.2.completed_at = some c ∧ mah * 3600 < now - c))
      ∧ ∀ e ∈ st, e.2.status ≠ "completed" → e.2.status ≠ "failed"
          → e ∈ (clean_old_tasks st mah now).2 := by
  have h12 : (clean_old_tasks st mah now).2 = st.filter (fun e => !shouldClean e.2 mah now)
      ∧ (clean_old_tasks st mah now).1
        = (st.filter (fun e => shouldClean e.2 mah now)).length := by
    induction st with
    | nil => exact ⟨rfl, rfl⟩
    | cons e rest ih =>
      cases hc : shouldClean e.2 mah now
      · simp [clean_old_tasks, List.filter_cons, hc, ih.1, ih.2]
      · simp [clean_old_tasks, List.filter_cons, hc, ih.1, ih.2]
  refine ⟨h12, fun e _ => ?_, fun e he h1 h2 => ?_⟩
  · cases hco : e.2.completed_at <;>
      simp [shouldClean, hco, Bool.and_eq_true, Bool.or_eq_true, beq_iff_eq]
  · have hsc : shouldClean e.2 mah now = false := by
      simp [shouldClean, beq_eq_false_iff_ne.mpr h1, beq_eq_false_iff_ne.mpr h2]
    rw [h12.1]
    exact List.mem_filter.mpr ⟨he, by rw [hsc]; rfl⟩

/-- C3 witness: the amended sweep on a store holding an old completed, an old
failed, an old cancelled and a still-downloading task. -/
theorem clean_old_tasks_spec_witness :
    ("d", { startedTask with id := "d" }) ∈ (clean_old_tasks sweepStore 0 1000000).2
      ∧ (clean_old_tasks sweepStore 0 1000000).1
        = (sweepStore.filter (fun e => shouldClean e.2 0 1000000)).length :=
  ⟨(clean_old_tasks_spec sweepStore 0 1000000).2.2 ("d", { startedTask with id := "d" })
      (by decide) (by decide) (by decide),
    (clean_old_tasks_spec sweepStore 0 1000000).1.2⟩

/-- C5: `cancel_task` succeeds — marking `'cancelled'`, setting
`completed_at` and touching no other task — exactly when the task exists in
a non-terminal status (`created`, `starting`, `extracting`, `downloading`);
in every other case it returns `False` with the store unchanged, and in
particular a second cancel of an already-cancelled task fails without side
effects. -/
theorem cancel_task_spec (st : Store) (id : String) (now : Nat) :
    ((cancel_task st id now).1 = true
        ↔ ∃ t, alGet st id = some t ∧ nonTerminalStatuses.contains t.status = true)
      ∧ ((cancel_task st id now).1 = false → (cancel_task st id now).2 = st)
      ∧ ∀ t, alGet st id = some t → nonTerminalStatuses.contains t.status = true →
          alGet (cancel_task st id now).2 id
              = some { t with status := "cancelled", completed_at := some now }
            ∧ (∀ j, j ≠ id → alGet (cancel_task st id now).2 j = alGet st j)
            ∧ ∀ now2, cancel_task (cancel_task st id now).2 id now2
                = (false, (cancel_task st id now).2) := by
  cases hg : alGet st id with
  | none =>
    have hct : cancel_task st id now = (false, st) := by
      simp [cancel_task, hg]
    refine ⟨?_, fun _ => by rw [hct], fun t ht _ => ?_⟩
    · rw [hct]
      constructor
      · intro h
        exact absurd h (by simp)
      · rintro ⟨t, ht, -⟩
        exact absurd ht (by simp)
    · exact absurd ht (by simp)
  | some t0 =>
    cases hc : nonTerminalStatuses.contains t0.status with
    | false =>
      have hc' : t0.status ∉ nonTerminalStatuses := by simpa using hc
      have hct : cancel_task st id now = (false, st) := by
        simp [cancel_task, hg, hc']
      refine ⟨?_, fun _ => by rw [hct], fun t ht hcon => ?_⟩
      · rw [hct]
        constructor
        · intro h
          exact absurd h (by simp)
        · rintro ⟨t, ht, hcon⟩
          injection ht with hei
          rw [← hei, hc] at hcon
          exact absurd hcon (by decide)
      · injection ht with hei
        rw [← hei, hc] at hcon
        exact absurd hcon (by decide)
    | true =>
      have hc' : t0.status ∈ nonTerminalStatuses := by simpa using hc
      have hct : cancel_task st id now
          = (true, alUpdate st id fun u => { u with status := "cancelled", completed_at := some now }) := by
        simp [cancel_task, hg, hc']
      refine ⟨?_, ?_, fun t ht hcon => ?_⟩
      · rw [hct]
        exact ⟨fun _ => ⟨t0, rfl, hc⟩, fun _ => rfl⟩
      · intro hfalse
        rw [hct] at hfalse
        exact absurd hfalse (by simp)
      · injection ht with hei
        refine ⟨?_, ?_, ?_⟩
        · rw [hct, alGet_update_self, hg, ← hei]
          rfl
        · intro j hj
          rw [hct]
          exact alGet_update_ne st id j
            (fun u => { u with status := "cancelled", completed_at := some now }) hj
        · intro now2
          rw [hct]
          have hg2 : alGet (alUpdate st id fun u =>
                { u with status := "cancelled", completed_at := some now }) id
              = some { t0 with status := "cancelled", completed_at := some now } := by
            rw [alGet_update_self, hg]
            rfl
          have hcf : ({ t0 with status := "cancelled", completed_at := some now } : Task).status
              ∉ nonTerminalStatuses := by simp [nonTerminalStatuses]
          simp [cancel_task, hg2, hcf]

/-- C5 witness: cancelling the freshly created task succeeds; cancelling it
again fails and leaves the store as it was after the first cancel. -/
theorem cancel_task_spec_witness :
    alGet (cancel_task c1Store0 "t1" 5).2 "t1"
        = some { createdTask with status := "cancelled", completed_at := some 5 }
      ∧ ∀ now2, cancel_task (cancel_task c1Store0 "t1" 5).2 "t1" now2
        = (false, (cancel_task c1Store0 "t1" 5).2) :=
  have h := (cancel_task_spec c1Store0 "t1" 5).2.2 createdTask (by decide) (by decide)
  ⟨h.1, h.2.2⟩

/-- C6: when `extract_info` reports failure, the download thread marks the
task `'failed'` with that error message (or the source's default), sets
`completed_at`, leaves `file_path` and `progress` untouched, and never
reaches the download phase — the run does not depend on any download
result. -/
theorem extract_failure_spec (st : Store) (id : String) (t : Task) (e : ExtractResult)
    (d d' : DownloadResult) (n1 n2 : Nat)
    (ht : alGet st id = some t) (he : e.success = false) :
    (∃ t', alGet (download_thread st id e d n1 n2) id = some t'
        ∧ t'.status = "failed"
        ∧ t'.error = some (e.error.getD "Failed to extract video information")
        ∧ t'.completed_at = some n1
        ∧ t'.file_path = t.file_path
        ∧ t'.progress = t.progress)
      ∧ download_thread st id e d n1 n2 = download_thread st id e d' n1 n2 := by
  have hdt : ∀ dr : DownloadResult,
      download_thread st id e dr n1 n2 = dlFailExtract (dlMarkExtracting st id) id e n1 := by
    intro dr
    simp [download_thread, he]
  constructor
  · rw [hdt d]
    unfold dlFailExtract dlMarkExtracting
    rw [alGet_update_self, alGet_update_self, ht]
    exact ⟨_, rfl, rfl, rfl, rfl, rfl, rfl⟩
  · rw [hdt d, hdt d']

/-- C6 witness: the failing extraction on the freshly created task, against
two distinct download results. -/
theorem extract_failure_spec_witness :
    (∃ t', alGet (download_thread c1Store0 "t1" failedExtract c1Download 7 8) "t1" = some t'
        ∧ t'.status = "failed"
        ∧ t'.error = some (failedExtract.error.getD "Failed to extract video information")
        ∧ t'.completed_at = some 7
        ∧ t'.file_path = createdTask.file_path
        ∧ t'.progress = createdTask.progress)
      ∧ download_thread c1Store0 "t1" failedExtract c1Download 7 8
        = download_thread c1Store0 "t1" failedExtract { success := false } 7 8 :=
  extract_failure_spec c1Store0 "t1" createdTask failedExtract c1Download { success := false }
    7 8 (by decide) rfl

end VD

